import Mathlib

/-!
# Verification of AgileRL's architecture-mutation engine

Shallow embedding of the parts of the AgileRL repository that the spec's
claims are about:

* `agilerl/modules/multi_input.py` — the `EvolvableMultiInput` composite
  encoder: construction, latent-node mutations, activation mutation,
  `recreate_network` and the shape semantics of `forward`.
* `agilerl/utils/utils.py` — `initialPopulation`.
* The weight transplant `EvolvableModule.preserve_parameters` and the seeded
  random generator inherited from `agilerl/modules/base.py` (that file is not
  part of the sources at hand; those two pieces are modelled from the spec,
  see their doc comments).

Python integers are modelled as `Int`; mutations that act on `self` in place
are modelled as state-passing functions `MultiInputState → ... → MultiInputState`
whose result is the state of the *same* object after the call.
-/

namespace AgileRL

/-- A subspace of a `spaces.Dict` observation space, as `EvolvableMultiInput`
classifies them: 1-D `Box` vectors, `Discrete` spaces, and 3-D image `Box`
spaces (channels, height, width).  Nested `Dict`/`Tuple` subspaces and
`Box` spaces of other ranks are outside this model. -/
inductive SubSpace where
  | box1d (n : Nat)
  | discrete (n : Nat)
  | image (c h w : Nat)
deriving DecidableEq, Repr

/-- `gymnasium.spaces.flatdim` for the modelled subspaces: a `Discrete n`
space flattens to a one-hot vector of length `n`. -/
def flatdimS : SubSpace → Nat
  | .box1d n => n
  | .discrete n => n
  | .image c h w => c * h * w

/-- Modelled from the spec: `is_image_space` from
`agilerl/utils/evolvable_networks.py` is not among the sources; per the
module docstring an image subspace is a 3-D `Box`. -/
def is_image_space : SubSpace → Bool
  | .image _ _ _ => true
  | _ => false

/-- Modelled from the spec: `is_vector_space` from
`agilerl/utils/evolvable_networks.py` is not among the sources; vector
subspaces are 1-D `Box` and `Discrete` spaces. -/
def is_vector_space : SubSpace → Bool
  | .box1d _ => true
  | .discrete _ => true
  | .image _ _ _ => false

/-- `vector_space_check` from `multi_input.py`: vector spaces as they pertain
to the use of an `EvolvableMLP` (the `Box` rank > 3 escape hatch is outside
this model's subspace grammar). -/
def vector_space_check (s : SubSpace) : Bool :=
  is_vector_space s

/-- A feature extractor built by `build_feature_extractor` for one key:
an `EvolvableCNN` projecting to `outDim` features, an `nn.Flatten()`, or the
optional vector `EvolvableMLP` with `inDim` inputs and `outDim` outputs. -/
inductive Encoder where
  | cnn (outDim : Int)
  | flatten
  | vectorMlp (inDim outDim : Int)
deriving DecidableEq, Repr

/-- Association-list lookup by key, mirroring Python `dict` access for the
ordered key/value collections of the model. -/
def lookupA {α : Type} : List (String × α) → String → Option α
  | [], _ => none
  | (k, v) :: rest, key => if k = key then some v else lookupA rest key

/-- The mutable state of an `EvolvableMultiInput` instance: its constructor
arguments, the built feature extractors, the stored
`extracted_features_dim` attribute (set in `__init__` and *not* refreshed by
`recreate_network`), the shape of `final_dense`, and the seeded generator
state `rng` inherited from `EvolvableModule`. -/
structure MultiInputState where
  observation_space : List (String × SubSpace)
  num_outputs : Int
  latent_dim : Int
  vector_space_mlp : Bool
  min_latent_dim : Int
  max_latent_dim : Int
  activation : Option String
  output_activation : Option String
  feature_net : List (String × Encoder)
  extracted_features_dim : Int
  final_dense_in : Int
  final_dense_out : Int
  rng : Nat
deriving DecidableEq, Repr

/-- `self.vector_spaces`: the subspaces passing `vector_space_check`. -/
def vectorSpaces (s : MultiInputState) : List (String × SubSpace) :=
  s.observation_space.filter (fun ks => vector_space_check ks.2)

/-- The keys of `self.vector_spaces`. -/
def vectorKeys (s : MultiInputState) : List String :=
  (vectorSpaces s).map Prod.fst

/-- `get_total_flatdim(self.vector_spaces)`. -/
def total_vector_dims (s : MultiInputState) : Int :=
  ((vectorSpaces s).map (fun ks => (flatdimS ks.2 : Int))).sum

/-- The per-subspace part of `build_feature_extractor`: an `EvolvableCNN`
projecting to `latent` features for every image subspace, `nn.Flatten()` for
`Discrete` subspaces, nothing for 1-D `Box` subspaces (skipped by the
`continue`). -/
def buildObsPart (obs : List (String × SubSpace)) (latent : Int) :
    List (String × Encoder) :=
  obs.filterMap (fun ks =>
    match ks.2 with
    | .box1d _ => none
    | .discrete _ => some (ks.1, Encoder.flatten)
    | .image _ _ _ => some (ks.1, Encoder.cnn latent))

/-- `build_feature_extractor`: the per-subspace extractors and, when
`vector_space_mlp` is set, a trailing `EvolvableMLP` under the key
`"vector_mlp"` taking all concatenated vector dims to `latent_dim`
features. -/
def buildFeatureExtractor (s : MultiInputState) : List (String × Encoder) :=
  buildObsPart s.observation_space s.latent_dim ++
  (if s.vector_space_mlp then
    [("vector_mlp", Encoder.vectorMlp (total_vector_dims s) s.latent_dim)]
  else [])

/-- `calc_extracted_features_dim`: sums `self.latent_dim` once for every
`feature_net` key that is not a vector-space key. -/
def calc_extracted_features_dim (s : MultiInputState) : Int :=
  (((s.feature_net.map Prod.fst).filter
      (fun k => !(decide (k ∈ vectorKeys s)))).map
    (fun _ => s.latent_dim)).sum

/-- `1 - self.vector_space_mlp` as the Python bool-to-int coercion. -/
def vsmBit (b : Bool) : Int :=
  if b then 1 else 0

/-- The number of output features an encoder produces on an observation of
the given subspace: CNNs and the vector MLP project to their built output
width; `nn.Flatten()` yields the subspace's flat dimension. -/
def encOut (e : Encoder) (sub : SubSpace) : Int :=
  match e with
  | .cnn outD => outD
  | .flatten => (flatdimS sub : Int)
  | .vectorMlp _ outD => outD

/-- The `extracted_features` dict `forward` builds (lines 419–423): one
entry per observation key present in `feature_net`, gated on the stored
`extracted_features_dim > 0` attribute. -/
def forwardExtracted (s : MultiInputState) : List (String × Int) :=
  if 0 < s.extracted_features_dim then
    s.observation_space.filterMap (fun ko =>
      (lookupA s.feature_net ko.1).map (fun e => (ko.1, encOut e ko.2)))
  else []

/-- The widths of the `vector_inputs` list (lines 425–437): for each vector
subspace, the popped extracted entry if present, else the raw observation's
flat width. -/
def forwardVecDims (s : MultiInputState) : List Int :=
  (vectorSpaces s).map (fun ks =>
    match lookupA (forwardExtracted s) ks.1 with
    | some d => d
    | none => (flatdimS ks.2 : Int))

/-- The extracted features remaining after the vector keys were popped. -/
def forwardExtractedRest (s : MultiInputState) : List (String × Int) :=
  (forwardExtracted s).filter (fun kd => !(decide (kd.1 ∈ vectorKeys s)))

/-- The width of `vector_features` (lines 439–449): the concatenated vector
inputs, optionally passed through the `"vector_mlp"` extractor, whose built
input width must match for the pass to succeed. -/
def forwardVectorFeat (s : MultiInputState) : Option Int :=
  if s.vector_space_mlp then
    match lookupA s.feature_net "vector_mlp" with
    | some (Encoder.vectorMlp inD outD) =>
      if inD = (forwardVecDims s).sum then some outD else none
    | _ => none
  else
    some (forwardVecDims s).sum

/-- The shape semantics of `forward` (lines 401–465): concatenate the
remaining extracted features with the vector features and apply
`final_dense`, whose `in_features` must match.  Returns the last dimension
of the output tensor (the output activation and the optional `LayerNorm`
preserve it), or `none` where the real network would raise a shape error. -/
def forward_shape (s : MultiInputState) : Option Int :=
  (forwardVectorFeat s).bind (fun vf =>
    if ((forwardExtractedRest s).map Prod.snd).sum + vf = s.final_dense_in then
      some s.final_dense_out
    else none)

/-- `recreate_network` (lines 521–537): rebuild the feature extractors with
the current `latent_dim` (adopting the new structure, with weights
transplanted by `preserve_parameters`), recompute the features dimension
into a *local* variable, and rebuild `final_dense` with it.  The stored
`extracted_features_dim` attribute is deliberately not refreshed, matching
the source (line 529 assigns a local, not `self.extracted_features_dim`). -/
def recreate_network (s : MultiInputState) : MultiInputState :=
  let s1 := { s with feature_net := buildFeatureExtractor s }
  { s1 with
    final_dense_in := calc_extracted_features_dim s1 +
      total_vector_dims s1 * (1 - vsmBit s1.vector_space_mlp)
    final_dense_out := s1.num_outputs }

/-- The entries `forward` collects into `extracted_features` when the gate
is open, expressed directly over the observation space. -/
def extractedSpec (obs : List (String × SubSpace)) (latent : Int) :
    List (String × Int) :=
  obs.filterMap (fun ks =>
    match ks.2 with
    | .box1d _ => none
    | .discrete n => some (ks.1, (n : Int))
    | .image _ _ _ => some (ks.1, latent))

/-- The extracted features remaining after the vector keys are popped:
one `latent`-wide entry per image subspace. -/
def remSpec (obs : List (String × SubSpace)) (latent : Int) :
    List (String × Int) :=
  obs.filterMap (fun ks =>
    match ks.2 with
    | .image _ _ _ => some (ks.1, latent)
    | _ => none)

/-- The encoder `build_feature_extractor` assigns to one subspace, if any. -/
def encFor (latent : Int) : SubSpace → Option Encoder
  | .box1d _ => none
  | .discrete _ => some Encoder.flatten
  | .image _ _ _ => some (Encoder.cnn latent)

/-- The extracted-feature width `forward` records for one subspace, if any. -/
def dimFor (latent : Int) : SubSpace → Option Int
  | .box1d _ => none
  | .discrete n => some (n : Int)
  | .image _ _ _ => some latent

/-- The extracted-feature width that survives the vector-key pop: only image
subspaces contribute. -/
def remFor (latent : Int) : SubSpace → Option Int
  | .image _ _ _ => some latent
  | _ => none

/-- The number of image subspaces. -/
def imageCount (obs : List (String × SubSpace)) : Nat :=
  (obs.filter (fun ks => is_image_space ks.2)).length

/-- The number of `feature_net` entries that contribute `latent_dim`
features: one per image subspace, plus the vector MLP when enabled. -/
def kCount (s : MultiInputState) : Nat :=
  imageCount s.observation_space + (if s.vector_space_mlp then 1 else 0)

/-- The observation-space keys are usable as `dict` keys: pairwise distinct
(as they are in a `spaces.Dict`) and none of them collides with the
reserved `"vector_mlp"` entry of `feature_net`. -/
def goodKeysL (obs : List (String × SubSpace)) : Prop :=
  (obs.map Prod.fst).Nodup ∧ "vector_mlp" ∉ obs.map Prod.fst

instance (obs : List (String × SubSpace)) : Decidable (goodKeysL obs) := by
  unfold goodKeysL; infer_instance

/-- The shape well-formedness `__init__` establishes and `recreate_network`
re-establishes: `feature_net` is the built extractor for the current state,
`final_dense` is sized `calc_extracted_features_dim() + total_vector_dims *
(1 - vector_space_mlp) → num_outputs`, and the stored
`extracted_features_dim` attribute is positive exactly when some extractor
contributes latent features. -/
def wfShape (s : MultiInputState) : Prop :=
  s.feature_net = buildFeatureExtractor s ∧
  s.final_dense_in = calc_extracted_features_dim s +
    total_vector_dims s * (1 - vsmBit s.vector_space_mlp) ∧
  s.final_dense_out = s.num_outputs ∧
  ((0 < s.extracted_features_dim) ↔ (0 < kCount s))

/-- The `EvolvableMultiInput` constructor (`__init__`), lines 109–200 of
`multi_input.py`: stores the configuration, builds the feature extractors,
caches `extracted_features_dim` and sizes `final_dense`.  The `assert`
statements of the constructor are carried as the `validInit` predicate. -/
def initMultiInput (obs : List (String × SubSpace)) (numOutputs latentDim : Int)
    (vsm : Bool) (minLat maxLat : Int) (seed : Nat) : MultiInputState :=
  let s0 : MultiInputState :=
    { observation_space := obs
      num_outputs := numOutputs
      latent_dim := latentDim
      vector_space_mlp := vsm
      min_latent_dim := minLat
      max_latent_dim := maxLat
      activation := none
      output_activation := none
      feature_net := []
      extracted_features_dim := 0
      final_dense_in := 0
      final_dense_out := 0
      rng := seed }
  let s1 := { s0 with feature_net := buildFeatureExtractor s0 }
  let efd := calc_extracted_features_dim s1
  { s1 with
    extracted_features_dim := efd
    final_dense_in := efd + total_vector_dims s1 * (1 - vsmBit vsm)
    final_dense_out := numOutputs }

/-- The constructor's `assert` statements (lines 128–138): positive
`num_outputs`, positive `latent_dim`, and `latent_dim` within the
configured `[min_latent_dim, max_latent_dim]` bounds. -/
def validInit (numOutputs latentDim minLat maxLat : Int) : Prop :=
  0 < numOutputs ∧ 0 < latentDim ∧ latentDim ≤ maxLat ∧ minLat ≤ latentDim

instance (numOutputs latentDim minLat maxLat : Int) :
    Decidable (validInit numOutputs latentDim minLat maxLat) := by
  unfold validInit; infer_instance

/-- Modelled from the spec: the seeded random generator handle
(`self.rng`, created by `EvolvableModule.__init__` in
`agilerl/modules/base.py`, which is not among the sources).  The spec only
requires a deterministic sequential generator ("same seed ⇒ identical
sequence of category/operation choices"), so any pure step function
represents it; we use a linear congruential step. -/
def rngNext (r : Nat) : Nat :=
  (r * 1103515245 + 12345) % 2147483648

/-- Modelled from the spec: `self.rng.choice([8, 16, 32])` — draws one
element of `[8, 16, 32]` determined by the current generator state and
advances the state. -/
def rngChoice3 (r : Nat) : Int × Nat :=
  (if r % 3 = 0 then 8 else if r % 3 = 1 then 16 else 32, rngNext r)

/-- `add_latent_node` (lines 483–499): draw the node count when `None`, grow
`self.latent_dim` in place only when the grown value stays strictly below
`max_latent_dim`, and return the `{"numb_new_nodes": ...}` descriptor. -/
def addLatentNode (s : MultiInputState) (numbNewNodes : Option Int) :
    MultiInputState × Int :=
  let n : Int :=
    match numbNewNodes with
    | some n => n
    | none => (rngChoice3 s.rng).1
  let r : Nat :=
    match numbNewNodes with
    | some _ => s.rng
    | none => (rngChoice3 s.rng).2
  if s.latent_dim + n < s.max_latent_dim then
    ({ s with latent_dim := s.latent_dim + n, rng := r }, n)
  else
    ({ s with rng := r }, n)

/-- `remove_latent_node` (lines 501–519): draw the node count when `None`,
shrink `self.latent_dim` in place only when the shrunk value stays strictly
above `min_latent_dim`, and return the `{"numb_new_nodes": ...}` descriptor. -/
def removeLatentNode (s : MultiInputState) (numbNewNodes : Option Int) :
    MultiInputState × Int :=
  let n : Int :=
    match numbNewNodes with
    | some n => n
    | none => (rngChoice3 s.rng).1
  let r : Nat :=
    match numbNewNodes with
    | some _ => s.rng
    | none => (rngChoice3 s.rng).2
  if s.min_latent_dim < s.latent_dim - n then
    ({ s with latent_dim := s.latent_dim - n, rng := r }, n)
  else
    ({ s with rng := r }, n)

/-- `change_activation` (lines 467–481): sets `self._activation`, propagates
it to the feature extractors (not shape-relevant, hence not tracked on
`Encoder`), and replaces the output activation when `output=True`.  The
Python function returns `None`. -/
def changeActivation (s : MultiInputState) (act : String) (output : Bool) :
    MultiInputState :=
  { s with
    activation := some act
    output_activation := if output then some act else s.output_activation }

/-- One latent-node mutation call: `add_latent_node` or `remove_latent_node`
with an explicit count or `None`. -/
inductive NodeOp where
  | addNode (n : Option Int)
  | removeNode (n : Option Int)
deriving DecidableEq, Repr

/-- Apply one latent-node mutation, returning the new state of the instance
and the `numb_new_nodes` descriptor entry. -/
def applyNodeOp (s : MultiInputState) : NodeOp → MultiInputState × Int
  | .addNode o => addLatentNode s o
  | .removeNode o => removeLatentNode s o

/-- Run a sequence of latent-node mutation calls. -/
def runNodeOps (s : MultiInputState) (ops : List NodeOp) : MultiInputState :=
  ops.foldl (fun s op => (applyNodeOp s op).1) s

/-- One latent-node mutation immediately followed by `recreate_network`, the
way the mutation orchestrator applies architecture mutations. -/
def mutRecreate (s : MultiInputState) (op : NodeOp) : MultiInputState :=
  recreate_network (applyNodeOp s op).1

/-- Run a sequence of latent-node mutations, each followed by
`recreate_network`. -/
def runMutRecreate (s : MultiInputState) (ops : List NodeOp) : MultiInputState :=
  ops.foldl mutRecreate s

/-- The node count of a `NodeOp` is positive (automatically true for
sampled counts, which come from `{8, 16, 32}`). -/
def opPositive : NodeOp → Prop
  | .addNode (some n) => 0 < n
  | .addNode none => True
  | .removeNode (some n) => 0 < n
  | .removeNode none => True

instance (op : NodeOp) : Decidable (opPositive op) := by
  unfold opPositive; cases op with
  | addNode o => cases o <;> infer_instance
  | removeNode o => cases o <;> infer_instance

/-- The latent-dimension bounds invariant. -/
def latentInBounds (s : MultiInputState) : Prop :=
  s.min_latent_dim ≤ s.latent_dim ∧ s.latent_dim ≤ s.max_latent_dim

instance (s : MultiInputState) : Decidable (latentInBounds s) := by
  unfold latentInBounds; infer_instance

/-- The fields of an `EvolvableMultiInput` that the mutation methods
themselves never touch (the structural fields are only rebuilt by a later
`recreate_network` call). -/
def sameStatic (s t : MultiInputState) : Prop :=
  s.observation_space = t.observation_space ∧
  s.num_outputs = t.num_outputs ∧
  s.vector_space_mlp = t.vector_space_mlp ∧
  s.min_latent_dim = t.min_latent_dim ∧
  s.max_latent_dim = t.max_latent_dim ∧
  s.feature_net = t.feature_net ∧
  s.extracted_features_dim = t.extracted_features_dim ∧
  s.final_dense_in = t.final_dense_in ∧
  s.final_dense_out = t.final_dense_out

instance (s t : MultiInputState) : Decidable (sameStatic s t) := by
  unfold sameStatic; infer_instance

/-- A latent-node mutation call with `numb_new_nodes=None`, i.e. one whose
node count is drawn from the module's seeded generator. -/
def opDrawn : NodeOp → Prop
  | .addNode none => True
  | .removeNode none => True
  | .addNode (some _) => False
  | .removeNode (some _) => False

instance (op : NodeOp) : Decidable (opDrawn op) := by
  unfold opDrawn; cases op with
  | addNode o => cases o <;> infer_instance
  | removeNode o => cases o <;> infer_instance

/-- The sequence of `numb_new_nodes` descriptor values produced by a
sequence of latent-node mutation calls. -/
def sampleTrace : MultiInputState → List NodeOp → List Int
  | _, [] => []
  | s, op :: rest => (applyNodeOp s op).2 :: sampleTrace (applyNodeOp s op).1 rest

/-- The `INIT_HP` hyperparameter dictionary of `initialPopulation`
(`agilerl/utils/utils.py`), with the keys the six algorithm branches read.
Learning rates and similar real-valued entries are modelled as rationals. -/
structure InitHP where
  batchSize : Nat
  lr : Rat
  learnStep : Nat
  gamma : Rat
  tau : Rat
  double : Bool
  policyFreq : Nat
  maxAction : Rat
  minAction : Rat
  nAgents : Nat
  agentIds : List String
  discreteActions : Bool
deriving DecidableEq, Repr

/-- An agent produced by `initialPopulation`: the constructor arguments each
algorithm class receives.  Fields that only some algorithms take are
`Option`-valued and `none` for the algorithms that do not receive them. -/
structure Agent where
  algo : String
  stateDim : List Nat
  actionDim : List Nat
  oneHot : Bool
  index : Nat
  netConfig : String
  batchSize : Nat
  lr : Rat
  learnStep : Nat
  gamma : Rat
  tau : Rat
  device : String
  double : Option Bool
  policyFreq : Option Nat
  maxAction : Option Rat
  minAction : Option Rat
  nAgents : Option Nat
  agentIds : List String
  discreteActions : Option Bool
deriving DecidableEq, Repr

/-- The six algorithm names `initialPopulation` dispatches on. -/
def supportedAlgos : List String :=
  ["DQN", "DDPG", "CQN", "TD3", "MADDPG", "MATD3"]

/-- `initialPopulation` from `agilerl/utils/utils.py` (lines 24–173): an
`if/elif` chain over the algorithm name; each branch runs
`for idx in range(population_size)` and appends an agent constructed with
`index=idx`; no `else` branch exists, so an unrecognised name falls through
and the initial empty `population` list is returned. -/
def initialPopulation (algo : String) (stateDim actionDim : List Nat)
    (oneHot : Bool) (netConfig : String) (INIT_HP : InitHP)
    (populationSize : Nat) (device : String) : List Agent :=
  if algo = "DQN" then
    (List.range populationSize).map (fun idx =>
      { algo := "DQN", stateDim := stateDim, actionDim := actionDim,
        oneHot := oneHot, index := idx, netConfig := netConfig,
        batchSize := INIT_HP.batchSize, lr := INIT_HP.lr,
        learnStep := INIT_HP.learnStep, gamma := INIT_HP.gamma,
        tau := INIT_HP.tau, device := device,
        double := some INIT_HP.double, policyFreq := none,
        maxAction := none, minAction := none, nAgents := none,
        agentIds := [], discreteActions := none })
  else if algo = "DDPG" then
    (List.range populationSize).map (fun idx =>
      { algo := "DDPG", stateDim := stateDim, actionDim := actionDim,
        oneHot := oneHot, index := idx, netConfig := netConfig,
        batchSize := INIT_HP.batchSize, lr := INIT_HP.lr,
        learnStep := INIT_HP.learnStep, gamma := INIT_HP.gamma,
        tau := INIT_HP.tau, device := device,
        double := none, policyFreq := some INIT_HP.policyFreq,
        maxAction := none, minAction := none, nAgents := none,
        agentIds := [], discreteActions := none })
  else if algo = "CQN" then
    (List.range populationSize).map (fun idx =>
      { algo := "CQN", stateDim := stateDim, actionDim := actionDim,
        oneHot := oneHot, index := idx, netConfig := netConfig,
        batchSize := INIT_HP.batchSize, lr := INIT_HP.lr,
        learnStep := INIT_HP.learnStep, gamma := INIT_HP.gamma,
        tau := INIT_HP.tau, device := device,
        double := some INIT_HP.double, policyFreq := none,
        maxAction := none, minAction := none, nAgents := none,
        agentIds := [], discreteActions := none })
  else if algo = "TD3" then
    (List.range populationSize).map (fun idx =>
      { algo := "TD3", stateDim := stateDim, actionDim := actionDim,
        oneHot := oneHot, index := idx, netConfig := netConfig,
        batchSize := INIT_HP.batchSize, lr := INIT_HP.lr,
        learnStep := INIT_HP.learnStep, gamma := INIT_HP.gamma,
        tau := INIT_HP.tau, device := device,
        double := none, policyFreq := some INIT_HP.policyFreq,
        maxAction := some INIT_HP.maxAction, minAction := none,
        nAgents := none, agentIds := [], discreteActions := none })
  else if algo = "MADDPG" then
    (List.range populationSize).map (fun idx =>
      { algo := "MADDPG", stateDim := stateDim, actionDim := actionDim,
        oneHot := oneHot, index := idx, netConfig := netConfig,
        batchSize := INIT_HP.batchSize, lr := INIT_HP.lr,
        learnStep := INIT_HP.learnStep, gamma := INIT_HP.gamma,
        tau := INIT_HP.tau, device := device,
        double := none, policyFreq := none,
        maxAction := some INIT_HP.maxAction, minAction := some INIT_HP.minAction,
        nAgents := some INIT_HP.nAgents, agentIds := INIT_HP.agentIds,
        discreteActions := some INIT_HP.discreteActions })
  else if algo = "MATD3" then
    (List.range populationSize).map (fun idx =>
      { algo := "MATD3", stateDim := stateDim, actionDim := actionDim,
        oneHot := oneHot, index := idx, netConfig := netConfig,
        batchSize := INIT_HP.batchSize, lr := INIT_HP.lr,
        learnStep := INIT_HP.learnStep, gamma := INIT_HP.gamma,
        tau := INIT_HP.tau, device := device,
        double := none, policyFreq := some INIT_HP.policyFreq,
        maxAction := some INIT_HP.maxAction, minAction := some INIT_HP.minAction,
        nAgents := some INIT_HP.nAgents, agentIds := INIT_HP.agentIds,
        discreteActions := some INIT_HP.discreteActions })
  else []

/-- Modelled from the spec: a named parameter/buffer tensor of a module
graph, for `EvolvableModule.preserve_parameters` from
`agilerl/modules/base.py` (not among the sources).  A tensor is a shape
(one extent per axis) and a value function over multi-indices. -/
structure PTensor where
  shape : List Nat
  val : List Nat → Int

/-- Whether a multi-index lies within a shape: same rank and every component
strictly below the corresponding extent. -/
def boundsB : List Nat → List Nat → Bool
  | [], [] => true
  | d :: ds, i :: ix => decide (i < d) && boundsB ds ix
  | _ :: _, [] => false
  | [], _ :: _ => false

/-- Modelled from the spec: the per-tensor transplant — the result has
`new`'s shape; at every multi-index within `old`'s extents (with matching
rank) the value is copied from `old`; indices beyond `old`'s extents, and
all indices when the rank changed, retain `new`'s fresh initialization
(transplant never raises on a shape mismatch). -/
def transplantTensor (old new : PTensor) : PTensor :=
  { shape := new.shape
    val := fun ix =>
      if old.shape.length = new.shape.length ∧ boundsB old.shape ix = true then
        old.val ix
      else
        new.val ix }

/-- Modelled from the spec: `EvolvableModule.preserve_parameters(old, new)` —
walk `new`'s named parameters/buffers, transplanting from the equally-named
entry of `old` when one exists (matched by hierarchical name); parameters
present only in `new` are left at their fresh initialization. -/
def preserveParameters (oldNet newNet : List (String × PTensor)) :
    List (String × PTensor) :=
  newNet.map (fun kt =>
    match lookupA oldNet kt.1 with
    | some t0 => (kt.1, transplantTensor t0 kt.2)
    | none => kt)

/-- Extensional tensor equality: identical shape and identical values on
every in-bounds multi-index. -/
def tensorEq (t u : PTensor) : Prop :=
  t.shape = u.shape ∧ ∀ ix, boundsB t.shape ix = true → t.val ix = u.val ix

/-- C6's hypothesis as stated: every named parameter/buffer of `old` is
present in `new` with an identical shape. -/
def oldShapesInNew (oldNet newNet : List (String × PTensor)) : Prop :=
  ∀ p ∈ oldNet, ∃ t, (p.1, t) ∈ newNet ∧ t.shape = p.2.shape

/-- C6's conclusion as stated: every parameter/buffer of the result is
exactly equal to `old`'s equally-named entry (pure copy, no drift, no
freshly initialized entries). -/
def netCopiesOld (res oldNet : List (String × PTensor)) : Prop :=
  ∀ q ∈ res, ∃ t0, (q.1, t0) ∈ oldNet ∧ tensorEq q.2 t0

lemma rngChoice3_pos (r : Nat) : 0 < (rngChoice3 r).1 := by
  unfold rngChoice3
  split_ifs <;> norm_num

lemma rngChoice3_mem (r : Nat) : (rngChoice3 r).1 ∈ ([8, 16, 32] : List Int) := by
  unfold rngChoice3
  split_ifs <;> simp

lemma addLatentNode_bounds (s : MultiInputState) (o : Option Int)
    (hpos : opPositive (NodeOp.addNode o)) (hinv : latentInBounds s) :
    latentInBounds (addLatentNode s o).1 := by
  obtain ⟨hmin, hmax⟩ := hinv
  cases o with
  | none =>
    have hn : 0 < (rngChoice3 s.rng).1 := rngChoice3_pos s.rng
    unfold addLatentNode
    simp only
    split
    · rename_i h
      constructor
      · simpa using le_trans hmin (by omega)
      · simp only at h ⊢
        omega
    · exact ⟨hmin, hmax⟩
  | some n =>
    have hn : 0 < n := hpos
    unfold addLatentNode
    simp only
    split
    · rename_i h
      constructor
      · simpa using le_trans hmin (by omega)
      · simp only at h ⊢
        omega
    · exact ⟨hmin, hmax⟩

lemma removeLatentNode_bounds (s : MultiInputState) (o : Option Int)
    (hpos : opPositive (NodeOp.removeNode o)) (hinv : latentInBounds s) :
    latentInBounds (removeLatentNode s o).1 := by
  obtain ⟨hmin, hmax⟩ := hinv
  cases o with
  | none =>
    have hn : 0 < (rngChoice3 s.rng).1 := rngChoice3_pos s.rng
    unfold removeLatentNode
    simp only
    split
    · rename_i h
      constructor
      · simp only at h ⊢
        omega
      · simp only at h ⊢
        omega
    · exact ⟨hmin, hmax⟩
  | some n =>
    have hn : 0 < n := hpos
    unfold removeLatentNode
    simp only
    split
    · rename_i h
      constructor
      · simp only at h ⊢
        omega
      · simp only at h ⊢
        omega
    · exact ⟨hmin, hmax⟩

lemma applyNodeOp_bounds (s : MultiInputState) (op : NodeOp)
    (hpos : opPositive op) (hinv : latentInBounds s) :
    latentInBounds (applyNodeOp s op).1 := by
  cases op with
  | addNode o => exact addLatentNode_bounds s o hpos hinv
  | removeNode o => exact removeLatentNode_bounds s o hpos hinv

lemma runNodeOps_bounds (ops : List NodeOp) :
    ∀ s : MultiInputState, (∀ op ∈ ops, opPositive op) → latentInBounds s →
      latentInBounds (runNodeOps s ops) := by
  induction ops with
  | nil => intro s _ hinv; exact hinv
  | cons op rest ih =>
    intro s hpos hinv
    have h1 : latentInBounds (applyNodeOp s op).1 :=
      applyNodeOp_bounds s op (hpos op (by simp)) hinv
    exact ih _ (fun o ho => hpos o (by simp [ho])) h1

lemma lookupA_mem_nodup {α : Type} (l : List (String × α)) (k : String) (v : α)
    (hnodup : (l.map Prod.fst).Nodup) (hmem : (k, v) ∈ l) :
    lookupA l k = some v := by
  induction l with
  | nil => cases hmem
  | cons p rest ih =>
    rcases List.mem_cons.1 hmem with heq | hmem'
    · subst heq
      simp [lookupA]
    · have hk : ¬p.1 = k := by
        intro hcontra
        have hkm : k ∈ rest.map Prod.fst :=
          List.mem_map.2 ⟨(k, v), hmem', rfl⟩
        rw [List.map_cons, List.nodup_cons] at hnodup
        exact hnodup.1 (hcontra ▸ hkm)
      rw [List.map_cons, List.nodup_cons] at hnodup
      simp only [lookupA, if_neg hk]
      exact ih hnodup.2 hmem'

lemma lookupA_append {α : Type} (l1 l2 : List (String × α)) (k : String) :
    lookupA (l1 ++ l2) k =
      (match lookupA l1 k with
       | some v => some v
       | none => lookupA l2 k) := by
  induction l1 with
  | nil => rfl
  | cons p rest ih =>
    by_cases hk : p.1 = k
    · simp [lookupA, hk]
    · simp only [List.cons_append, lookupA, if_neg hk]
      exact ih

lemma lookupA_buildObsPart_not_mem (obs : List (String × SubSpace)) (latent : Int)
    (k : String) (hk : k ∉ obs.map Prod.fst) :
    lookupA (buildObsPart obs latent) k = none := by
  induction obs with
  | nil => rfl
  | cons p rest ih =>
    have hk1 : ¬p.1 = k := fun h => hk (by simp [h])
    have hk2 : k ∉ rest.map Prod.fst := fun h => hk (by simp [h])
    obtain ⟨k1, sub⟩ := p
    cases sub <;>
      simp_all [buildObsPart, List.filterMap_cons, lookupA]

lemma lookupA_extractedSpec_not_mem (obs : List (String × SubSpace)) (latent : Int)
    (k : String) (hk : k ∉ obs.map Prod.fst) :
    lookupA (extractedSpec obs latent) k = none := by
  induction obs with
  | nil => rfl
  | cons p rest ih =>
    have hk1 : ¬p.1 = k := fun h => hk (by simp [h])
    have hk2 : k ∉ rest.map Prod.fst := fun h => hk (by simp [h])
    obtain ⟨k1, sub⟩ := p
    cases sub <;>
      simp_all [extractedSpec, List.filterMap_cons, lookupA]

lemma buildObsPart_cons (k1 : String) (psub : SubSpace)
    (rest : List (String × SubSpace)) (latent : Int) :
    buildObsPart ((k1, psub) :: rest) latent =
      ((encFor latent psub).map (fun e => (k1, e))).toList ++
        buildObsPart rest latent := by
  cases psub <;> simp [buildObsPart, List.filterMap_cons, encFor]

lemma extractedSpec_cons (k1 : String) (psub : SubSpace)
    (rest : List (String × SubSpace)) (latent : Int) :
    extractedSpec ((k1, psub) :: rest) latent =
      ((dimFor latent psub).map (fun d => (k1, d))).toList ++
        extractedSpec rest latent := by
  cases psub <;> simp [extractedSpec, List.filterMap_cons, dimFor]

lemma remSpec_cons (k1 : String) (psub : SubSpace)
    (rest : List (String × SubSpace)) (latent : Int) :
    remSpec ((k1, psub) :: rest) latent =
      ((remFor latent psub).map (fun d => (k1, d))).toList ++
        remSpec rest latent := by
  cases psub <;> simp [remSpec, List.filterMap_cons, remFor]

lemma lookupA_buildObsPart_mem (obs : List (String × SubSpace)) (latent : Int)
    (k : String) (sub : SubSpace)
    (hnodup : (obs.map Prod.fst).Nodup) (hmem : (k, sub) ∈ obs) :
    lookupA (buildObsPart obs latent) k = encFor latent sub := by
  induction obs with
  | nil => cases hmem
  | cons p rest ih =>
    rw [List.map_cons, List.nodup_cons] at hnodup
    rcases List.mem_cons.1 hmem with heq | hmem'
    · subst heq
      rw [buildObsPart_cons]
      cases sub with
      | box1d n =>
        simpa [encFor] using
          lookupA_buildObsPart_not_mem rest latent k hnodup.1
      | discrete n => simp [encFor, lookupA]
      | image c h w => simp [encFor, lookupA]
    · have hpk : ¬p.1 = k := fun hcontra =>
        hnodup.1 (hcontra ▸ List.mem_map.2 ⟨(k, sub), hmem', rfl⟩)
      obtain ⟨k1, psub⟩ := p
      rw [buildObsPart_cons]
      cases psub <;>
        simp only [encFor, Option.map_none, Option.map_some, Option.toList_none,
          Option.toList_some, List.nil_append, List.cons_append, lookupA,
          if_neg hpk] <;>
        exact ih hnodup.2 hmem'

lemma lookupA_extractedSpec_mem (obs : List (String × SubSpace)) (latent : Int)
    (k : String) (sub : SubSpace)
    (hnodup : (obs.map Prod.fst).Nodup) (hmem : (k, sub) ∈ obs) :
    lookupA (extractedSpec obs latent) k = dimFor latent sub := by
  induction obs with
  | nil => cases hmem
  | cons p rest ih =>
    rw [List.map_cons, List.nodup_cons] at hnodup
    rcases List.mem_cons.1 hmem with heq | hmem'
    · subst heq
      rw [extractedSpec_cons]
      cases sub with
      | box1d n =>
        simpa [dimFor] using
          lookupA_extractedSpec_not_mem rest latent k hnodup.1
      | discrete n => simp [dimFor, lookupA]
      | image c h w => simp [dimFor, lookupA]
    · have hpk : ¬p.1 = k := fun hcontra =>
        hnodup.1 (hcontra ▸ List.mem_map.2 ⟨(k, sub), hmem', rfl⟩)
      obtain ⟨k1, psub⟩ := p
      rw [extractedSpec_cons]
      cases psub <;>
        simp only [dimFor, Option.map_none, Option.map_some, Option.toList_none,
          Option.toList_some, List.nil_append, List.cons_append, lookupA,
          if_neg hpk] <;>
        exact ih hnodup.2 hmem'

lemma mem_vectorKeys_mem_obs (s : MultiInputState) (x : String)
    (hx : x ∈ vectorKeys s) : x ∈ s.observation_space.map Prod.fst := by
  obtain ⟨ks, hks, rfl⟩ := List.mem_map.1 hx
  exact List.mem_map.2 ⟨ks, (List.mem_filter.1 hks).1, rfl⟩

lemma keys_unique (obs : List (String × SubSpace))
    (hnodup : (obs.map Prod.fst).Nodup) (k : String) (a b : SubSpace)
    (ha : (k, a) ∈ obs) (hb : (k, b) ∈ obs) : a = b := by
  have h1 := lookupA_mem_nodup obs k a hnodup ha
  have h2 := lookupA_mem_nodup obs k b hnodup hb
  rw [h1] at h2
  exact Option.some.inj h2

lemma decide_mem_vectorKeys (s : MultiInputState)
    (hnodup : (s.observation_space.map Prod.fst).Nodup)
    (k : String) (sub : SubSpace) (hmem : (k, sub) ∈ s.observation_space) :
    decide (k ∈ vectorKeys s) = vector_space_check sub := by
  by_cases hc : vector_space_check sub = true
  · rw [hc]
    simp only [decide_eq_true_eq]
    exact List.mem_map.2 ⟨(k, sub), List.mem_filter.2 ⟨hmem, hc⟩, rfl⟩
  · have hc' : vector_space_check sub = false := by simpa using hc
    rw [hc']
    simp only [decide_eq_false_iff_not]
    intro hk
    obtain ⟨ks, hks, hfst⟩ := List.mem_map.1 hk
    have hobs : ks ∈ s.observation_space := (List.mem_filter.1 hks).1
    have hcheck : vector_space_check ks.2 = true := (List.mem_filter.1 hks).2
    obtain ⟨k2, sub2⟩ := ks
    simp only at hfst
    subst hfst
    have hsub : sub2 = sub :=
      keys_unique s.observation_space hnodup k2 sub2 sub hobs hmem
    rw [hsub] at hcheck
    rw [hcheck] at hc'
    cases hc'

lemma hK_of_good (s : MultiInputState) (hgood : goodKeysL s.observation_space) :
    ∀ p ∈ s.observation_space,
      decide (p.1 ∈ vectorKeys s) = vector_space_check p.2 := by
  intro p hp
  obtain ⟨k, sub⟩ := p
  exact decide_mem_vectorKeys s hgood.1 k sub hp

lemma lookupA_build_mem (s : MultiInputState)
    (hgood : goodKeysL s.observation_space)
    (k : String) (sub : SubSpace) (hmem : (k, sub) ∈ s.observation_space) :
    lookupA (buildFeatureExtractor s) k = encFor s.latent_dim sub := by
  have hk_ne : ¬("vector_mlp" = k) := fun h =>
    hgood.2 (h ▸ List.mem_map.2 ⟨(k, sub), hmem, rfl⟩)
  unfold buildFeatureExtractor
  rw [lookupA_append,
    lookupA_buildObsPart_mem s.observation_space s.latent_dim k sub hgood.1 hmem]
  cases hsub : encFor s.latent_dim sub with
  | some e => rfl
  | none =>
    cases hv : s.vector_space_mlp <;> simp [hv, lookupA, hk_ne]

lemma lookupA_build_vm (s : MultiInputState)
    (hvm : "vector_mlp" ∉ s.observation_space.map Prod.fst) :
    lookupA (buildFeatureExtractor s) "vector_mlp" =
      (if s.vector_space_mlp then
        some (Encoder.vectorMlp (total_vector_dims s) s.latent_dim)
      else none) := by
  unfold buildFeatureExtractor
  rw [lookupA_append,
    lookupA_buildObsPart_not_mem s.observation_space s.latent_dim _ hvm]
  cases hv : s.vector_space_mlp <;> simp [hv, lookupA]

lemma forwardExtracted_open (s : MultiInputState)
    (hgood : goodKeysL s.observation_space)
    (hfn : s.feature_net = buildFeatureExtractor s)
    (hg : 0 < s.extracted_features_dim) :
    forwardExtracted s = extractedSpec s.observation_space s.latent_dim := by
  unfold forwardExtracted
  rw [if_pos hg, hfn]
  unfold extractedSpec
  apply List.filterMap_congr
  intro ko hko
  obtain ⟨k, sub⟩ := ko
  rw [lookupA_build_mem s hgood k sub hko]
  cases sub <;> simp [encFor, encOut, flatdimS]

lemma forwardVecDims_sum (s : MultiInputState)
    (hgood : goodKeysL s.observation_space)
    (hfn : s.feature_net = buildFeatureExtractor s) :
    (forwardVecDims s).sum = total_vector_dims s := by
  unfold forwardVecDims total_vector_dims
  congr 1
  by_cases hg : 0 < s.extracted_features_dim
  · rw [forwardExtracted_open s hgood hfn hg]
    apply List.map_congr_left
    intro ks hks
    obtain ⟨k, sub⟩ := ks
    have hobs : (k, sub) ∈ s.observation_space := (List.mem_filter.1 hks).1
    have hcheck : vector_space_check sub = true := (List.mem_filter.1 hks).2
    rw [lookupA_extractedSpec_mem s.observation_space s.latent_dim k sub
      hgood.1 hobs]
    cases sub with
    | box1d n => simp [dimFor, flatdimS]
    | discrete n => simp [dimFor, flatdimS]
    | image c h w => simp [vector_space_check, is_vector_space] at hcheck
  · have : forwardExtracted s = [] := by unfold forwardExtracted; rw [if_neg hg]
    rw [this]
    apply List.map_congr_left
    intro ks _
    rfl

lemma extractedSpec_filter_eq_remSpec (obs : List (String × SubSpace))
    (latent : Int) (K : List String)
    (hK : ∀ p ∈ obs, decide (p.1 ∈ K) = vector_space_check p.2) :
    (extractedSpec obs latent).filter (fun kd => !(decide (kd.1 ∈ K))) =
      remSpec obs latent := by
  induction obs with
  | nil => rfl
  | cons p rest ih =>
    obtain ⟨k, sub⟩ := p
    have hhead := hK (k, sub) (List.mem_cons_self _ _)
    have htail : ∀ q ∈ rest, decide (q.1 ∈ K) = vector_space_check q.2 :=
      fun q hq => hK q (List.mem_cons_of_mem _ hq)
    rw [extractedSpec_cons, remSpec_cons]
    cases sub with
    | box1d n => simpa [dimFor, remFor] using ih htail
    | discrete n =>
      have hmemK : decide (k ∈ K) = true := by
        simpa [vector_space_check, is_vector_space] using hhead
      simpa [dimFor, remFor, List.filter_cons, hmemK] using ih htail
    | image c h w =>
      have hmemK : decide (k ∈ K) = false := by
        simpa [vector_space_check, is_vector_space] using hhead
      simpa [dimFor, remFor, List.filter_cons, hmemK] using ih htail

lemma sum_map_constI {α : Type} (l : List α) (c : Int) :
    (l.map (fun _ => c)).sum = c * l.length := by
  induction l with
  | nil => simp
  | cons a t ih =>
    simp only [List.map_cons, List.sum_cons, ih, List.length_cons]
    push_cast
    ring

lemma remSpec_sum (obs : List (String × SubSpace)) (latent : Int) :
    ((remSpec obs latent).map Prod.snd).sum =
      latent * (imageCount obs : Int) := by
  induction obs with
  | nil => simp [remSpec, imageCount]
  | cons p rest ih =>
    obtain ⟨k, sub⟩ := p
    rw [remSpec_cons]
    cases sub with
    | box1d n =>
      simpa [remFor, imageCount, is_image_space, List.filter_cons] using ih
    | discrete n =>
      simpa [remFor, imageCount, is_image_space, List.filter_cons] using ih
    | image c h w =>
      simp [remFor, imageCount, is_image_space, List.filter_cons, ih]
      ring

lemma forwardExtractedRest_sum (s : MultiInputState)
    (hgood : goodKeysL s.observation_space)
    (hfn : s.feature_net = buildFeatureExtractor s)
    (hgate : (0 < s.extracted_features_dim) ↔ (0 < kCount s)) :
    ((forwardExtractedRest s).map Prod.snd).sum =
      s.latent_dim * (imageCount s.observation_space : Int) := by
  unfold forwardExtractedRest
  by_cases hg : 0 < s.extracted_features_dim
  · rw [forwardExtracted_open s hgood hfn hg,
      extractedSpec_filter_eq_remSpec s.observation_space s.latent_dim
        (vectorKeys s) (hK_of_good s hgood)]
    exact remSpec_sum s.observation_space s.latent_dim
  · have hempty : forwardExtracted s = [] := by
      unfold forwardExtracted
      rw [if_neg hg]
    have hk0 : kCount s = 0 := by
      by_contra hne
      exact hg (hgate.2 (Nat.pos_of_ne_zero hne))
    have himg : imageCount s.observation_space = 0 := by
      unfold kCount at hk0
      omega
    rw [hempty, himg]
    simp

lemma kCount_zero_no_mlp (s : MultiInputState) (hk0 : kCount s = 0) :
    s.vector_space_mlp = false := by
  unfold kCount at hk0
  cases hv : s.vector_space_mlp
  · rfl
  · rw [hv] at hk0
    simp at hk0

lemma buildObsPart_keys_filter_len (obs : List (String × SubSpace))
    (latent : Int) (K : List String)
    (hK : ∀ p ∈ obs, decide (p.1 ∈ K) = vector_space_check p.2) :
    (((buildObsPart obs latent).map Prod.fst).filter
        (fun k => !(decide (k ∈ K)))).length = imageCount obs := by
  induction obs with
  | nil => rfl
  | cons p rest ih =>
    obtain ⟨k, sub⟩ := p
    have hhead := hK (k, sub) (List.mem_cons_self _ _)
    have htail : ∀ q ∈ rest, decide (q.1 ∈ K) = vector_space_check q.2 :=
      fun q hq => hK q (List.mem_cons_of_mem _ hq)
    rw [buildObsPart_cons]
    cases sub with
    | box1d n =>
      simpa [encFor, imageCount, is_image_space, List.filter_cons] using
        ih htail
    | discrete n =>
      have hmemK : decide (k ∈ K) = true := by
        simpa [vector_space_check, is_vector_space] using hhead
      simpa [encFor, imageCount, is_image_space, List.filter_cons, hmemK]
        using ih htail
    | image c h w =>
      have hmemK : decide (k ∈ K) = false := by
        simpa [vector_space_check, is_vector_space] using hhead
      simp [encFor, imageCount, is_image_space, List.filter_cons, hmemK,
        ih htail]

lemma calc_eq (s : MultiInputState)
    (hgood : goodKeysL s.observation_space)
    (hfn : s.feature_net = buildFeatureExtractor s) :
    calc_extracted_features_dim s =
      s.latent_dim * ((imageCount s.observation_space : Int) +
        vsmBit s.vector_space_mlp) := by
  unfold calc_extracted_features_dim
  rw [hfn]
  unfold buildFeatureExtractor
  rw [List.map_append, List.filter_append, List.map_append, List.sum_append,
    sum_map_constI, sum_map_constI,
    buildObsPart_keys_filter_len s.observation_space s.latent_dim
      (vectorKeys s) (hK_of_good s hgood)]
  have hvmk : decide ("vector_mlp" ∈ vectorKeys s) = false := by
    simp only [decide_eq_false_iff_not]
    intro hmm
    exact hgood.2 (mem_vectorKeys_mem_obs s _ hmm)
  cases hv : s.vector_space_mlp with
  | false => simp [hv, vsmBit]
  | true =>
    simp [hv, vsmBit, List.filter_cons, hvmk]
    ring

lemma forwardVectorFeat_eq (s : MultiInputState)
    (hgood : goodKeysL s.observation_space)
    (hfn : s.feature_net = buildFeatureExtractor s) :
    forwardVectorFeat s =
      some (if s.vector_space_mlp then s.latent_dim
        else total_vector_dims s) := by
  unfold forwardVectorFeat
  cases hv : s.vector_space_mlp with
  | false => simp [hv, forwardVecDims_sum s hgood hfn]
  | true =>
    have hlook : lookupA s.feature_net "vector_mlp" =
        some (Encoder.vectorMlp (total_vector_dims s) s.latent_dim) := by
      rw [hfn, lookupA_build_vm s hgood.2, if_pos hv]
    simp [hv, hlook, forwardVecDims_sum s hgood hfn]

lemma forward_shape_wf (s : MultiInputState)
    (hgood : goodKeysL s.observation_space) (hwf : wfShape s) :
    forward_shape s = some s.num_outputs := by
  obtain ⟨hfn, hin, hout, hgate⟩ := hwf
  unfold forward_shape
  rw [forwardVectorFeat_eq s hgood hfn]
  simp only [Option.some_bind]
  rw [forwardExtractedRest_sum s hgood hfn hgate, hin,
    calc_eq s hgood hfn, hout]
  have hvf : ∀ b : Bool,
      s.latent_dim * (imageCount s.observation_space : Int) +
        (if b then s.latent_dim else total_vector_dims s) =
      s.latent_dim * ((imageCount s.observation_space : Int) + vsmBit b) +
        total_vector_dims s * (1 - vsmBit b) := by
    intro b
    cases b <;> simp [vsmBit] <;> ring
  rw [if_pos (hvf s.vector_space_mlp)]

lemma addLatentNode_sameStatic (s : MultiInputState) (o : Option Int) :
    sameStatic s (addLatentNode s o).1 := by
  unfold addLatentNode
  cases o <;> simp only <;> split <;> simp [sameStatic]

lemma removeLatentNode_sameStatic (s : MultiInputState) (o : Option Int) :
    sameStatic s (removeLatentNode s o).1 := by
  unfold removeLatentNode
  cases o <;> simp only <;> split <;> simp [sameStatic]

lemma applyNodeOp_sameStatic (s : MultiInputState) (op : NodeOp) :
    sameStatic s (applyNodeOp s op).1 := by
  cases op with
  | addNode o => exact addLatentNode_sameStatic s o
  | removeNode o => exact removeLatentNode_sameStatic s o

lemma recreate_wf (s : MultiInputState)
    (hgate : (0 < s.extracted_features_dim) ↔ (0 < kCount s)) :
    wfShape (recreate_network s) :=
  ⟨rfl, rfl, rfl, hgate⟩

lemma mutRecreate_good (s : MultiInputState) (op : NodeOp)
    (hgood : goodKeysL s.observation_space) :
    goodKeysL (mutRecreate s op).observation_space := by
  have h1 := (applyNodeOp_sameStatic s op).1
  show goodKeysL (applyNodeOp s op).1.observation_space
  rw [← h1]
  exact hgood

lemma mutRecreate_wf (s : MultiInputState) (op : NodeOp)
    (hgate : (0 < s.extracted_features_dim) ↔ (0 < kCount s)) :
    wfShape (mutRecreate s op) := by
  apply recreate_wf
  obtain ⟨hobs, _, hvsm, _, _, _, hefd, _, _⟩ := applyNodeOp_sameStatic s op
  have hk : kCount (applyNodeOp s op).1 = kCount s := by
    unfold kCount
    rw [← hobs, ← hvsm]
  rw [← hefd, hk]
  exact hgate

lemma mutRecreate_num_outputs (s : MultiInputState) (op : NodeOp) :
    (mutRecreate s op).num_outputs = s.num_outputs := by
  have h := (applyNodeOp_sameStatic s op).2.1
  show (applyNodeOp s op).1.num_outputs = s.num_outputs
  exact h.symm

lemma runMutRecreate_inv (ops : List NodeOp) :
    ∀ s : MultiInputState, goodKeysL s.observation_space → wfShape s →
      goodKeysL (runMutRecreate s ops).observation_space ∧
      wfShape (runMutRecreate s ops) ∧
      (runMutRecreate s ops).num_outputs = s.num_outputs := by
  induction ops with
  | nil => intro s hg hwf; exact ⟨hg, hwf, rfl⟩
  | cons op rest ih =>
    intro s hg hwf
    have hstep_good := mutRecreate_good s op hg
    have hstep_wf := mutRecreate_wf s op hwf.2.2.2
    obtain ⟨ha, hb, hc⟩ := ih (mutRecreate s op) hstep_good hstep_wf
    refine ⟨ha, hb, ?_⟩
    show (runMutRecreate (mutRecreate s op) rest).num_outputs = s.num_outputs
    rw [hc, mutRecreate_num_outputs]

lemma initMultiInput_wf (obs : List (String × SubSpace))
    (numOutputs latentDim : Int) (vsm : Bool) (minLat maxLat : Int)
    (seed : Nat) (hval : validInit numOutputs latentDim minLat maxLat)
    (hgood : goodKeysL obs) :
    wfShape (initMultiInput obs numOutputs latentDim vsm minLat maxLat seed) := by
  refine ⟨rfl, rfl, rfl, ?_⟩
  have hfn : (initMultiInput obs numOutputs latentDim vsm minLat maxLat
      seed).feature_net =
      buildFeatureExtractor
        (initMultiInput obs numOutputs latentDim vsm minLat maxLat seed) := rfl
  have hgood' : goodKeysL (initMultiInput obs numOutputs latentDim vsm minLat
      maxLat seed).observation_space := hgood
  have hefd : (initMultiInput obs numOutputs latentDim vsm minLat maxLat
      seed).extracted_features_dim =
      calc_extracted_features_dim
        (initMultiInput obs numOutputs latentDim vsm minLat maxLat seed) := rfl
  rw [hefd, calc_eq _ hgood' hfn]
  show 0 < latentDim * ((imageCount obs : Int) + vsmBit vsm) ↔
    0 < imageCount obs + (if vsm then 1 else 0)
  have hL : (0 : Int) < latentDim := hval.2.1
  constructor
  · intro h
    rcases mul_pos_iff.1 h with ⟨_, hx⟩ | ⟨hneg, _⟩
    · cases vsm <;> simp [vsmBit] at hx ⊢ <;> omega
    · exact absurd hneg (by omega)
  · intro h
    apply mul_pos hL
    cases vsm <;> simp [vsmBit] at h ⊢ <;> omega

end AgileRL

namespace AgileRL

/-- **C1.** For every `EvolvableMultiInput` whose `latent_dim` initially
satisfies `min_latent_dim ≤ latent_dim ≤ max_latent_dim` (enforced by the
constructor's assertions), after any finite sequence of `add_latent_node` and
`remove_latent_node` calls with arbitrary positive node counts (explicit or
sampled), `latent_dim` still satisfies
`min_latent_dim ≤ latent_dim ≤ max_latent_dim`. -/
theorem latent_dim_stays_in_bounds (s : MultiInputState) (ops : List NodeOp)
    (hpos : ∀ op ∈ ops, opPositive op)
    (hinit : latentInBounds s) :
    latentInBounds (runNodeOps s ops) :=
  runNodeOps_bounds ops s hpos hinit

/-- Witness for C1 at a concrete instance: `latent_dim = 32`, bounds
`[8, 128]`, one explicit add of 16, one sampled remove and one explicit
remove of 100 (a bound-violating no-op). -/
theorem latent_dim_stays_in_bounds_witness :
    (∀ op ∈ [NodeOp.addNode (some 16), NodeOp.removeNode none,
             NodeOp.removeNode (some 100)], opPositive op) ∧
    latentInBounds (initMultiInput [("obs", SubSpace.box1d 4)] 3 32 false 8 128 0) ∧
    latentInBounds (runNodeOps
      (initMultiInput [("obs", SubSpace.box1d 4)] 3 32 false 8 128 0)
      [NodeOp.addNode (some 16), NodeOp.removeNode none,
       NodeOp.removeNode (some 100)]) := by
  refine ⟨by decide, by decide, ?_⟩
  exact latent_dim_stays_in_bounds _ _ (by decide) (by decide)

/-- **C3.** If invoking `add_latent_node` with a requested node count would
move `latent_dim` beyond `max_latent_dim`, the call leaves the module state
entirely unchanged and returns normally with the `{"numb_new_nodes": n}`
descriptor; independently, if invoking `remove_latent_node` would move
`latent_dim` below `min_latent_dim`, that call likewise leaves the state
unchanged and returns the descriptor.  Both operations are total (no error
path exists in their bodies). -/
theorem out_of_bounds_node_mutation_is_noop (s : MultiInputState) (n : Int) :
    (s.max_latent_dim < s.latent_dim + n →
      addLatentNode s (some n) = (s, n)) ∧
    (s.latent_dim - n < s.min_latent_dim →
      removeLatentNode s (some n) = (s, n)) := by
  constructor
  · intro hadd
    unfold addLatentNode
    simp only
    rw [if_neg (by omega)]
  · intro hrem
    unfold removeLatentNode
    simp only
    rw [if_neg (by omega)]

/-- Witness for C3, each implication at its own instance: an add of 16 at
`latent_dim = 120, max = 128` (only the add bound is violated there), and a
remove of 16 at `latent_dim = 10, min = 8`. -/
theorem out_of_bounds_node_mutation_is_noop_witness :
    ((initMultiInput [("obs", SubSpace.box1d 4)] 3 120 false 8 128 0).max_latent_dim <
      (initMultiInput [("obs", SubSpace.box1d 4)] 3 120 false 8 128 0).latent_dim + 16 ∧
     addLatentNode (initMultiInput [("obs", SubSpace.box1d 4)] 3 120 false 8 128 0)
        (some 16) =
      (initMultiInput [("obs", SubSpace.box1d 4)] 3 120 false 8 128 0, 16)) ∧
    ((initMultiInput [("obs", SubSpace.box1d 4)] 3 10 false 8 12 0).latent_dim - 16 <
      (initMultiInput [("obs", SubSpace.box1d 4)] 3 10 false 8 12 0).min_latent_dim ∧
     removeLatentNode (initMultiInput [("obs", SubSpace.box1d 4)] 3 10 false 8 12 0)
        (some 16) =
      (initMultiInput [("obs", SubSpace.box1d 4)] 3 10 false 8 12 0, 16)) :=
  ⟨⟨by decide,
    (out_of_bounds_node_mutation_is_noop
      (initMultiInput [("obs", SubSpace.box1d 4)] 3 120 false 8 128 0) 16).1
      (by decide)⟩,
   ⟨by decide,
    (out_of_bounds_node_mutation_is_noop
      (initMultiInput [("obs", SubSpace.box1d 4)] 3 10 false 8 12 0) 16).2
      (by decide)⟩⟩

/-- **C8.** For an `EvolvableMultiInput` with `latent_dim = 64`,
`min_latent_dim = 8` and `max_latent_dim = 128`, applying
`add_latent_node(numb_new_nodes=16)` three times yields `latent_dim`
values 80, then 96, then 112, each step applied in full (no clipping, no
no-op: each updated state differs from its predecessor exactly by +16). -/
theorem add_sixteen_three_times (s : MultiInputState)
    (h64 : s.latent_dim = 64) (_hmin : s.min_latent_dim = 8)
    (hmax : s.max_latent_dim = 128) :
    (addLatentNode s (some 16)).1.latent_dim = 80 ∧
    (addLatentNode (addLatentNode s (some 16)).1 (some 16)).1.latent_dim = 96 ∧
    (addLatentNode (addLatentNode (addLatentNode s (some 16)).1 (some 16)).1
        (some 16)).1.latent_dim = 112 := by
  have h1 : (addLatentNode s (some 16)).1 =
      { s with latent_dim := s.latent_dim + 16 } := by
    unfold addLatentNode
    simp only
    rw [if_pos (by omega)]
  have h2 : (addLatentNode { s with latent_dim := s.latent_dim + 16 } (some 16)).1 =
      { s with latent_dim := s.latent_dim + 16 + 16 } := by
    unfold addLatentNode
    simp only
    rw [if_pos (show s.latent_dim + 16 + 16 < s.max_latent_dim by omega)]
  have h3 : (addLatentNode { s with latent_dim := s.latent_dim + 16 + 16 } (some 16)).1 =
      { s with latent_dim := s.latent_dim + 16 + 16 + 16 } := by
    unfold addLatentNode
    simp only
    rw [if_pos (show s.latent_dim + 16 + 16 + 16 < s.max_latent_dim by omega)]
  refine ⟨?_, ?_, ?_⟩
  · rw [h1]
    show s.latent_dim + 16 = 80
    omega
  · rw [h1, h2]
    show s.latent_dim + 16 + 16 = 96
    omega
  · rw [h1, h2, h3]
    show s.latent_dim + 16 + 16 + 16 = 112
    omega

/-- Counterexample to **C4**: `add_latent_node` destructively mutates the
instance it is invoked on — after the call the invoked module's state
differs from its pre-mutation state (its `latent_dim` went from 32 to 48),
so the pre-mutation instance is *not* preserved. -/
theorem mutation_mutates_in_place_counterexample :
    (addLatentNode (initMultiInput [("obs", SubSpace.box1d 4)] 3 32 false 8 128 0)
        (some 16)).1 ≠
      initMultiInput [("obs", SubSpace.box1d 4)] 3 32 false 8 128 0 ∧
    (addLatentNode (initMultiInput [("obs", SubSpace.box1d 4)] 3 32 false 8 128 0)
        (some 16)).1.latent_dim = 48 := by
  decide

/-- **C4 (amended).** Every mutation operation of `EvolvableMultiInput`
mutates the invoked instance in place and returns only a change descriptor,
not a rebuilt module: `add_latent_node`/`remove_latent_node` update at most
`latent_dim` and the generator state and return `{"numb_new_nodes": n}`;
`change_activation` updates only the activation fields and returns `None`.
Every other field of the instance is left unchanged by the call itself (the
structural rebuild happens only in a subsequent `recreate_network` call on
the same instance). -/
theorem mutation_ops_mutate_in_place_with_descriptor (s : MultiInputState)
    (o : Option Int) (act : String) (out : Bool) :
    sameStatic s (addLatentNode s o).1 ∧
    sameStatic s (removeLatentNode s o).1 ∧
    (addLatentNode s o).1.activation = s.activation ∧
    (removeLatentNode s o).1.activation = s.activation ∧
    sameStatic s (changeActivation s act out) ∧
    (changeActivation s act out).latent_dim = s.latent_dim ∧
    (changeActivation s act out).rng = s.rng ∧
    (changeActivation s act out).activation = some act := by
  refine ⟨?_, ?_, ?_, ?_, ?_, rfl, rfl, rfl⟩
  · unfold addLatentNode
    cases o <;> simp only <;> split <;> simp [sameStatic]
  · unfold removeLatentNode
    cases o <;> simp only <;> split <;> simp [sameStatic]
  · unfold addLatentNode
    cases o <;> simp only <;> split <;> simp
  · unfold removeLatentNode
    cases o <;> simp only <;> split <;> simp
  · simp [sameStatic, changeActivation]

/-- Counterexample to **C5**: a bound-violating `add_latent_node(16)` call on
an instance with `latent_dim = 120, max_latent_dim = 128` is a no-op, while
the same call on an instance with `latent_dim = 32` changes the module — yet
both calls return the *identical* descriptor `{"numb_new_nodes": 16}`, so
the descriptor does not flag that no change occurred. -/
theorem noop_descriptor_not_flagged_counterexample :
    (addLatentNode (initMultiInput [("obs", SubSpace.box1d 4)] 3 120 false 8 128 0)
        (some 16)).1 =
      initMultiInput [("obs", SubSpace.box1d 4)] 3 120 false 8 128 0 ∧
    (addLatentNode (initMultiInput [("obs", SubSpace.box1d 4)] 3 32 false 8 128 0)
        (some 16)).1 ≠
      initMultiInput [("obs", SubSpace.box1d 4)] 3 32 false 8 128 0 ∧
    (addLatentNode (initMultiInput [("obs", SubSpace.box1d 4)] 3 120 false 8 128 0)
        (some 16)).2 =
      (addLatentNode (initMultiInput [("obs", SubSpace.box1d 4)] 3 32 false 8 128 0)
        (some 16)).2 := by
  decide

/-- **C5 (amended).** The descriptor returned by
`add_latent_node`/`remove_latent_node` always carries exactly the
requested (or sampled) node count, whether or not the mutation was applied;
a no-op due to a bound violation is not flagged in the descriptor and is
therefore indistinguishable, from the descriptor alone, from a mutation
that changed the module. -/
theorem node_mutation_descriptor_is_count_only (s : MultiInputState) (n : Int) :
    (addLatentNode s (some n)).2 = n ∧
    (removeLatentNode s (some n)).2 = n ∧
    (addLatentNode s none).2 = (rngChoice3 s.rng).1 ∧
    (removeLatentNode s none).2 = (rngChoice3 s.rng).1 := by
  refine ⟨?_, ?_, ?_, ?_⟩ <;>
    (first
      | (unfold addLatentNode; simp only; split <;> rfl)
      | (unfold removeLatentNode; simp only; split <;> rfl))

lemma applyNodeOp_drawn (s : MultiInputState) (op : NodeOp) (hd : opDrawn op) :
    (applyNodeOp s op).1.rng = rngNext s.rng ∧
    (applyNodeOp s op).2 = (rngChoice3 s.rng).1 := by
  cases op with
  | addNode o =>
    cases o with
    | none =>
      unfold applyNodeOp addLatentNode
      simp only
      exact ⟨by split <;> rfl, by split <;> rfl⟩
    | some n => exact absurd hd (by simp [opDrawn])
  | removeNode o =>
    cases o with
    | none =>
      unfold applyNodeOp removeLatentNode
      simp only
      exact ⟨by split <;> rfl, by split <;> rfl⟩
    | some n => exact absurd hd (by simp [opDrawn])

lemma sampleTrace_rng_determined (ops : List NodeOp) :
    ∀ s1 s2 : MultiInputState, (∀ op ∈ ops, opDrawn op) → s1.rng = s2.rng →
      sampleTrace s1 ops = sampleTrace s2 ops ∧
      (runNodeOps s1 ops).rng = (runNodeOps s2 ops).rng := by
  induction ops with
  | nil => intro s1 s2 _ h; exact ⟨rfl, h⟩
  | cons op rest ih =>
    intro s1 s2 hdrawn h
    have hop : opDrawn op := hdrawn op (by simp)
    obtain ⟨hr1, hd1⟩ := applyNodeOp_drawn s1 op hop
    obtain ⟨hr2, hd2⟩ := applyNodeOp_drawn s2 op hop
    have hrng : (applyNodeOp s1 op).1.rng = (applyNodeOp s2 op).1.rng := by
      rw [hr1, hr2, h]
    obtain ⟨htr, hfin⟩ :=
      ih (applyNodeOp s1 op).1 (applyNodeOp s2 op).1
        (fun o ho => hdrawn o (by simp [ho])) hrng
    refine ⟨?_, ?_⟩
    · show (applyNodeOp s1 op).2 :: _ = (applyNodeOp s2 op).2 :: _
      rw [hd1, hd2, h, htr]
    · exact hfin

lemma sampleTrace_mem (ops : List NodeOp) :
    ∀ s : MultiInputState, (∀ op ∈ ops, opDrawn op) →
      ∀ d ∈ sampleTrace s ops, d ∈ ([8, 16, 32] : List Int) := by
  induction ops with
  | nil => intro s _ d hd; simp [sampleTrace] at hd
  | cons op rest ih =>
    intro s hdrawn d hd
    obtain ⟨_, hdesc⟩ := applyNodeOp_drawn s op (hdrawn op (by simp))
    rcases (by simpa [sampleTrace] using hd :
        d = (applyNodeOp s op).2 ∨ d ∈ sampleTrace (applyNodeOp s op).1 rest) with
      h | h
    · rw [h, hdesc]; exact rngChoice3_mem s.rng
    · exact ih _ (fun o ho => hdrawn o (by simp [ho])) d h

/-- **C7.** Two `EvolvableMultiInput` instances whose seeded generators are
in the same state (in particular, two instances constructed with the same
`random_seed` and otherwise identical arguments) produce the identical
sequence of sampled node counts under the same sequence of
`add_latent_node`/`remove_latent_node` calls with `numb_new_nodes=None`,
and every sampled count is drawn from `{8, 16, 32}`. -/
theorem same_seed_same_sampled_node_counts (s1 s2 : MultiInputState)
    (ops : List NodeOp) (hdrawn : ∀ op ∈ ops, opDrawn op)
    (hseed : s1.rng = s2.rng) :
    sampleTrace s1 ops = sampleTrace s2 ops ∧
    ∀ d ∈ sampleTrace s1 ops, d ∈ ([8, 16, 32] : List Int) :=
  ⟨(sampleTrace_rng_determined ops s1 s2 hdrawn hseed).1,
   sampleTrace_mem ops s1 hdrawn⟩

/-- Witness for C7: two instances built with seed 7 (and different latent
dims, which is irrelevant to the draws), two `None`-count calls. -/
theorem same_seed_same_sampled_node_counts_witness :
    (∀ op ∈ [NodeOp.addNode none, NodeOp.removeNode none], opDrawn op) ∧
    (initMultiInput [("obs", SubSpace.box1d 4)] 3 32 false 8 128 7).rng =
      (initMultiInput [("obs", SubSpace.box1d 4)] 3 64 false 8 128 7).rng ∧
    (sampleTrace (initMultiInput [("obs", SubSpace.box1d 4)] 3 32 false 8 128 7)
        [NodeOp.addNode none, NodeOp.removeNode none] =
      sampleTrace (initMultiInput [("obs", SubSpace.box1d 4)] 3 64 false 8 128 7)
        [NodeOp.addNode none, NodeOp.removeNode none] ∧
     ∀ d ∈ sampleTrace (initMultiInput [("obs", SubSpace.box1d 4)] 3 32 false 8 128 7)
        [NodeOp.addNode none, NodeOp.removeNode none],
       d ∈ ([8, 16, 32] : List Int)) :=
  ⟨by decide, by decide,
   same_seed_same_sampled_node_counts _ _ _ (by decide) (by decide)⟩

/-- Witness for C8 at the concrete constructed instance. -/
theorem add_sixteen_three_times_witness :
    ((initMultiInput [("obs", SubSpace.box1d 4)] 3 64 false 8 128 0).latent_dim = 64) ∧
    ((addLatentNode (initMultiInput [("obs", SubSpace.box1d 4)] 3 64 false 8 128 0)
        (some 16)).1.latent_dim = 80 ∧
     (addLatentNode (addLatentNode
        (initMultiInput [("obs", SubSpace.box1d 4)] 3 64 false 8 128 0)
        (some 16)).1 (some 16)).1.latent_dim = 96 ∧
     (addLatentNode (addLatentNode (addLatentNode
        (initMultiInput [("obs", SubSpace.box1d 4)] 3 64 false 8 128 0)
        (some 16)).1 (some 16)).1 (some 16)).1.latent_dim = 112) :=
  ⟨by decide, add_sixteen_three_times _ (by decide) (by decide) (by decide)⟩

/-- **C9.** For every supported algorithm name (`DQN`, `DDPG`, `CQN`, `TD3`,
`MADDPG`, `MATD3`) and every `population_size`, `initialPopulation` returns a
list of exactly `population_size` agents, and the agent at list position `i`
was constructed with population index `i` (so indices are unique and equal to
the position). -/
theorem initialPopulation_size_and_indices (algo : String)
    (stateDim actionDim : List Nat) (oneHot : Bool) (netConfig : String)
    (hp : InitHP) (populationSize : Nat) (device : String)
    (halgo : algo ∈ supportedAlgos) :
    (initialPopulation algo stateDim actionDim oneHot netConfig hp
        populationSize device).length = populationSize ∧
    ∀ i (h : i < (initialPopulation algo stateDim actionDim oneHot netConfig hp
        populationSize device).length),
      ((initialPopulation algo stateDim actionDim oneHot netConfig hp
        populationSize device).get ⟨i, h⟩).index = i := by
  fin_cases halgo <;>
    refine ⟨by simp [initialPopulation], fun i h => ?_⟩ <;>
    · simp only [initialPopulation, List.length_map, List.length_range,
        if_true, reduceIte] at h ⊢
      simp [List.get_eq_getElem, List.getElem_map, List.getElem_range]

/-- Witness for C9: three MATD3 agents. -/
theorem initialPopulation_size_and_indices_witness :
    ("MATD3" ∈ supportedAlgos) ∧
    ((initialPopulation "MATD3" [4] [2] false "mlp"
        ⟨64, 1/1000, 5, 99/100, 1/100, true, 2, 1, -1, 2, ["a", "b"], true⟩
        3 "cpu").length = 3 ∧
     ∀ i (h : i < (initialPopulation "MATD3" [4] [2] false "mlp"
        ⟨64, 1/1000, 5, 99/100, 1/100, true, 2, 1, -1, 2, ["a", "b"], true⟩
        3 "cpu").length),
       ((initialPopulation "MATD3" [4] [2] false "mlp"
        ⟨64, 1/1000, 5, 99/100, 1/100, true, 2, 1, -1, 2, ["a", "b"], true⟩
        3 "cpu").get ⟨i, h⟩).index = i) :=
  ⟨by decide,
   initialPopulation_size_and_indices "MATD3" [4] [2] false "mlp"
     ⟨64, 1/1000, 5, 99/100, 1/100, true, 2, 1, -1, 2, ["a", "b"], true⟩
     3 "cpu" (by decide)⟩

/-- **C10.** `initialPopulation` called with an algorithm name that is not
one of the six supported ones returns the initial empty list regardless of
`population_size`, without raising (there is no `else` branch), so for any
positive requested size the returned population silently has fewer members
than requested. -/
theorem initialPopulation_unknown_algo_empty (algo : String)
    (stateDim actionDim : List Nat) (oneHot : Bool) (netConfig : String)
    (hp : InitHP) (populationSize : Nat) (device : String)
    (halgo : algo ∉ supportedAlgos) :
    initialPopulation algo stateDim actionDim oneHot netConfig hp
        populationSize device = [] ∧
    (0 < populationSize →
      (initialPopulation algo stateDim actionDim oneHot netConfig hp
          populationSize device).length < populationSize) := by
  have h : ¬(algo = "DQN" ∨ algo = "DDPG" ∨ algo = "CQN" ∨ algo = "TD3" ∨
      algo = "MADDPG" ∨ algo = "MATD3") := by
    simpa [supportedAlgos] using halgo
  push_neg at h
  obtain ⟨h1, h2, h3, h4, h5, h6⟩ := h
  have hempty : initialPopulation algo stateDim actionDim oneHot netConfig hp
      populationSize device = [] := by
    unfold initialPopulation
    rw [if_neg h1, if_neg h2, if_neg h3, if_neg h4, if_neg h5, if_neg h6]
  exact ⟨hempty, fun hn => by rw [hempty]; simpa using hn⟩

/-- **C2.** After any finite sequence of
`add_latent_node`/`remove_latent_node` mutations on an
`EvolvableMultiInput`, each followed by `recreate_network`, the final dense
layer maps exactly `calc_extracted_features_dim() + total_vector_dims *
(1 - vector_space_mlp)` input features to `num_outputs` outputs,
`num_outputs` is unchanged by the mutations, and a forward pass on an
observation of the declared observation space yields a tensor whose last
dimension equals `num_outputs`. -/
theorem forward_shape_stable_under_mutations
    (obs : List (String × SubSpace)) (numOutputs latentDim : Int) (vsm : Bool)
    (minLat maxLat : Int) (seed : Nat) (ops : List NodeOp)
    (hval : validInit numOutputs latentDim minLat maxLat)
    (hgood : goodKeysL obs) :
    (runMutRecreate
        (initMultiInput obs numOutputs latentDim vsm minLat maxLat seed)
        ops).final_dense_in =
      calc_extracted_features_dim (runMutRecreate
        (initMultiInput obs numOutputs latentDim vsm minLat maxLat seed) ops) +
      total_vector_dims (runMutRecreate
        (initMultiInput obs numOutputs latentDim vsm minLat maxLat seed) ops) *
        (1 - vsmBit (runMutRecreate
          (initMultiInput obs numOutputs latentDim vsm minLat maxLat seed)
          ops).vector_space_mlp) ∧
    (runMutRecreate
        (initMultiInput obs numOutputs latentDim vsm minLat maxLat seed)
        ops).num_outputs = numOutputs ∧
    (runMutRecreate
        (initMultiInput obs numOutputs latentDim vsm minLat maxLat seed)
        ops).final_dense_out = numOutputs ∧
    forward_shape (runMutRecreate
        (initMultiInput obs numOutputs latentDim vsm minLat maxLat seed)
        ops) = some numOutputs := by
  have hwf0 :=
    initMultiInput_wf obs numOutputs latentDim vsm minLat maxLat seed hval hgood
  have hgood0 : goodKeysL (initMultiInput obs numOutputs latentDim vsm minLat
      maxLat seed).observation_space := hgood
  obtain ⟨hgF, hwfF, hnumF⟩ := runMutRecreate_inv ops _ hgood0 hwf0
  have hnum : (runMutRecreate
      (initMultiInput obs numOutputs latentDim vsm minLat maxLat seed)
      ops).num_outputs = numOutputs := hnumF
  refine ⟨hwfF.2.1, hnum, ?_, ?_⟩
  · rw [hwfF.2.2.1]
    exact hnum
  · rw [forward_shape_wf _ hgF hwfF, hnum]

/-- Witness for C2: an observation space with an image, a 1-D `Box` and a
`Discrete` subspace, `vector_space_mlp = True`, and two mutations (one
explicit add of 16, one sampled remove), each followed by
`recreate_network`. -/
theorem forward_shape_stable_under_mutations_witness :
    validInit 5 32 8 128 ∧
    goodKeysL [("img", SubSpace.image 3 32 32), ("vec", SubSpace.box1d 8),
      ("d", SubSpace.discrete 4)] ∧
    forward_shape (runMutRecreate
      (initMultiInput [("img", SubSpace.image 3 32 32),
        ("vec", SubSpace.box1d 8), ("d", SubSpace.discrete 4)]
        5 32 true 8 128 0)
      [NodeOp.addNode (some 16), NodeOp.removeNode none]) = some 5 :=
  ⟨by decide, by decide,
   (forward_shape_stable_under_mutations
     [("img", SubSpace.image 3 32 32), ("vec", SubSpace.box1d 8),
      ("d", SubSpace.discrete 4)]
     5 32 true 8 128 0
     [NodeOp.addNode (some 16), NodeOp.removeNode none]
     (by decide) (by decide)).2.2.2⟩

/-- Counterexample to **C6** as stated: with `old` empty, every named
parameter of `old` is (vacuously) present in `new` with an identical shape,
yet the transplant result contains `new`'s freshly initialized parameter
`"a"`, which has no equal counterpart in `old` — so the result is not a pure
copy of `old`. -/
theorem preserve_parameters_exact_copy_counterexample :
    oldShapesInNew [] [("a", ⟨[1], fun _ => 7⟩)] ∧
    ¬netCopiesOld (preserveParameters [] [("a", ⟨[1], fun _ => 7⟩)]) [] := by
  constructor
  · intro p hp
    cases hp
  · intro h
    obtain ⟨t0, ht0, _⟩ :=
      h ("a", ⟨[1], fun _ => 7⟩) (by simp [preserveParameters, lookupA])
    cases ht0

/-- **C6 (amended).** For every pair of module graphs `old` and `new` in
which every named parameter and buffer of **new** is present in **old** with
an identical shape (matched by unique hierarchical name),
`preserve_parameters(old, new)` returns a module whose every parameter and
buffer is exactly equal to `old`'s equally-named entry — a pure copy, with
no drift and no freshly initialized entries. -/
theorem preserve_parameters_exact_copy (oldNet newNet : List (String × PTensor))
    (hnodup : (oldNet.map Prod.fst).Nodup)
    (hmatch : ∀ q ∈ newNet, ∃ t0, (q.1, t0) ∈ oldNet ∧ t0.shape = q.2.shape) :
    netCopiesOld (preserveParameters oldNet newNet) oldNet := by
  intro q hq
  obtain ⟨kt, hkt, hmap⟩ := List.mem_map.1 hq
  obtain ⟨t0, ht0mem, hshape⟩ := hmatch kt hkt
  have hlook : lookupA oldNet kt.1 = some t0 :=
    lookupA_mem_nodup oldNet kt.1 t0 hnodup ht0mem
  rw [hlook] at hmap
  refine ⟨t0, by rw [← hmap]; exact ht0mem, ?_⟩
  rw [← hmap]
  refine ⟨hshape.symm, fun ix hix => ?_⟩
  have hcond : t0.shape.length = kt.2.shape.length ∧ boundsB t0.shape ix = true := by
    constructor
    · rw [hshape]
    · rw [hshape]
      simpa [transplantTensor] using hix
  simp [transplantTensor, hcond]

/-- Witness for the amended C6: a one-entry graph `{"w": shape [2]}` with
old value 5 everywhere and fresh value 9; the transplanted entry equals
`old`'s. -/
theorem preserve_parameters_exact_copy_witness :
    ((([("w", (⟨[2], fun _ => 5⟩ : PTensor))].map Prod.fst)).Nodup) ∧
    netCopiesOld
      (preserveParameters [("w", (⟨[2], fun _ => 5⟩ : PTensor))]
        [("w", (⟨[2], fun _ => 9⟩ : PTensor))])
      [("w", (⟨[2], fun _ => 5⟩ : PTensor))] :=
  ⟨by simp,
   preserve_parameters_exact_copy
     [("w", (⟨[2], fun _ => 5⟩ : PTensor))]
     [("w", (⟨[2], fun _ => 9⟩ : PTensor))]
     (by simp)
     (fun q hq => ⟨⟨[2], fun _ => 5⟩, by
        rcases List.mem_singleton.1 hq with rfl
        exact ⟨List.mem_singleton.2 rfl, rfl⟩⟩)⟩

/-- Witness for C10: the unsupported name `"PPO"` with requested size 5. -/
theorem initialPopulation_unknown_algo_empty_witness :
    ("PPO" ∉ supportedAlgos) ∧
    (initialPopulation "PPO" [4] [2] false "mlp"
        ⟨64, 1/1000, 5, 99/100, 1/100, true, 2, 1, -1, 2, ["a", "b"], true⟩
        5 "cpu" = [] ∧
     (0 < 5 →
       (initialPopulation "PPO" [4] [2] false "mlp"
          ⟨64, 1/1000, 5, 99/100, 1/100, true, 2, 1, -1, 2, ["a", "b"], true⟩
          5 "cpu").length < 5)) :=
  ⟨by decide,
   initialPopulation_unknown_algo_empty "PPO" [4] [2] false "mlp"
     ⟨64, 1/1000, 5, 99/100, 1/100, true, 2, 1, -1, 2, ["a", "b"], true⟩
     5 "cpu" (by decide)⟩

end AgileRL
